import Mathlib

/-!
# Verification of the ai-news-agent recommendation pipeline

A shallow embedding, in Lean 4, of the pure core of the `ai-news-agent`
repository:

* `processing/preference_processor.py` — `transform_for_fetching`
* `recommendations/engine.py` — `score_article`, `rank_articles`,
  `generate_recommendations`
* `fetchers/newsapi_client.py` — `make_cache_key` and the
  normalisation/error handling inside `fetch_articles`
* `analysis/llm_analyzer.py` — `generate_cache_key`, the per-operation
  cache keys, and the response validation in `analyze_sentiment`

Python strings are Lean `String`s (`str.lower` is `strLower` below, the
per-character ASCII lowercase map; the inputs of interest are ASCII,
where the two agree).  Python floats in the
scoring engine are modelled by `Rat`: every score is a sum of `1.0`, `2.0`
and `0.5`, all exactly representable, so float arithmetic is exact here.
Python dicts are modelled by association lists in insertion order
(CPython dicts preserve insertion order).
-/

namespace NewsAgent

/-- Python `needle` is an initial segment of `hay` (helper for `in`). -/
def startsList : List Char → List Char → Bool
  | [], _ => true
  | _ :: _, [] => false
  | a :: as, b :: bs => a == b && startsList as bs

/-- Python substring containment `needle in hay` on lists of characters. -/
def hasSubList (hay needle : List Char) : Bool :=
  startsList needle hay ||
    match hay with
    | [] => false
    | _ :: t => hasSubList t needle

/-- Python `needle in hay` on strings. -/
def strContains (hay needle : String) : Bool :=
  hasSubList hay.data needle.data

/-- Python `str.lower()`, character by character (`Char.toLower` is the
ASCII `A`-`Z` mapping, which is what `str.lower` does on the ASCII
strings this codebase handles). -/
def strLower (s : String) : String :=
  ⟨s.data.map Char.toLower⟩

/-- Digits of a decimal numeral, accumulated left to right. -/
def decListVal (ds : List Char) : Nat :=
  ds.foldl (fun n c => n * 10 + (c.toNat - 48)) 0

/-- Python `int(s)` on a string: optional sign followed by decimal
digits; anything else raises (`none`). -/
def pyStrInt (s : String) : Option Int :=
  match s.data with
  | '-' :: ds =>
    if ¬ ds.isEmpty ∧ ds.all Char.isDigit then some (-(decListVal ds : Int)) else none
  | '+' :: ds =>
    if ¬ ds.isEmpty ∧ ds.all Char.isDigit then some (decListVal ds : Int) else none
  | ds =>
    if ¬ ds.isEmpty ∧ ds.all Char.isDigit then some (decListVal ds : Int) else none

/-- A JSON-ish scalar value appearing in the query-parameter dicts:
NewsAPI query parameters are strings except `pageSize`, an int. -/
inductive PVal where
  | s (v : String)
  | n (v : Int)
deriving DecidableEq

/-- Python truthiness of a `PVal`: a string is truthy iff nonempty, an
int iff nonzero (used by `{k: v for k, v in ... if v}`). -/
def PVal.truthy : PVal → Bool
  | .s v => v ≠ ""
  | .n v => v ≠ 0

/-- Model `UserPreferences` of `api/models.py` (pydantic), with its defaults. -/
structure UserPreferences where
  user_id : String
  preferred_categories : List String := []
  excluded_sources : List String := []
  preferred_authors : List String := []
  sources : List String := []
  keywords : List String := []
  language : String := "en"
  min_reading_level : Nat := 1
  max_article_length : Nat := 1000
deriving DecidableEq

/-- The article dicts flowing through `recommendations/engine.py`.  The
engine reads `title`, `description`, `content` via `.get(key, '')` (the
default collapses a missing key into `""`), `category` via `.get` (absent
gives `None`), `source.name` via `.get('source', {}).get('name', '')`,
and writes `relevance_score`. -/
structure Article where
  title : String := ""
  description : String := ""
  content : String := ""
  category : Option String := none
  source_name : String := ""
  relevance_score : Option Rat := none
deriving DecidableEq

/-- Function `RecommendationEngine.score_article` (`recommendations/engine.py`,
lines 18-52), translated clause by clause:

* `article_text` is the space-joined lowercased title/description/content;
* `+1.0` per preference keyword whose lowercasing occurs in `article_text`
  (guarded by `if preferences.keywords:`);
* `+2.0` when `preferences.preferred_categories` and `article.get('category')`
  are both truthy and the category is in the preferred list
  (`in` is case-sensitive string equality);
* `+0.5` when `preferences.sources` is truthy and the lowercased source
  name is among the lowercased preferred sources. -/
def score_article (article : Article) (preferences : UserPreferences) : Rat :=
  let article_text :=
    strLower article.title ++ " " ++ strLower article.description ++ " " ++
      strLower article.content
  let score1 : Rat :=
    if preferences.keywords.isEmpty then 0
    else
      preferences.keywords.foldl
        (fun s keyword => if strContains article_text (strLower keyword) then s + 1 else s) 0
  let score2 : Rat :=
    match article.category with
    | none => score1
    | some c =>
      if ¬ preferences.preferred_categories.isEmpty ∧ c ≠ "" then
        if c ∈ preferences.preferred_categories then score1 + 2 else score1
      else score1
  let article_source := strLower article.source_name
  if ¬ preferences.sources.isEmpty then
    if article_source ∈ preferences.sources.map strLower then score2 + 1 / 2
    else score2
  else score2

/-- The additive scoring rule exactly as the specification words it: the
count of keywords occurring case-insensitively in the haystack, plus `2`
if the article's category is present (a non-empty value) and equals a
preferred category, plus `1/2` if the lowercased source name
case-insensitively equals one of the preferred sources (membership among
the lowercased preferred sources), and nothing else. -/
def specScore (article : Article) (preferences : UserPreferences) : Rat :=
  let haystack :=
    strLower article.title ++ " " ++ strLower article.description ++ " " ++
      strLower article.content
  ((preferences.keywords.filter fun kw => strContains haystack (strLower kw)).length : Rat)
    + (match article.category with
       | some c => if c ≠ "" ∧ c ∈ preferences.preferred_categories then 2 else 0
       | none => 0)
    + (if strLower article.source_name ∈ preferences.sources.map strLower then 1 / 2
       else 0)

/-- The sort key used by `rank_articles`:
`lambda x: x.get('relevance_score', 0)`. -/
def relKey (x : Article) : Rat :=
  x.relevance_score.getD 0

/-- Descending comparison on the sort key.  Python's `sorted(...,
reverse=True)` is the stable descending sort; it is characterised by the
three properties proved below (permutation, sortedness, stability), which
determine the output uniquely, and insertion sort by `scoreGe` realises
them. -/
def scoreGe (a b : Article) : Prop :=
  relKey b ≤ relKey a

instance : DecidableRel scoreGe := fun a b =>
  inferInstanceAs (Decidable (relKey b ≤ relKey a))

/-- Assignment `article['relevance_score'] = score` as performed inside
`rank_articles` (the score is written into the article record itself). -/
def attachScore (preferences : UserPreferences) (article : Article) : Article :=
  { article with relevance_score := some (score_article article preferences) }

/-- Function `RecommendationEngine.rank_articles` (`recommendations/engine.py`,
lines 54-72): early return `[]` on empty input, attach
`relevance_score` to every article, then stable-sort by score
descending. -/
def rank_articles (articles : List Article) (preferences : UserPreferences) :
    List Article :=
  if articles.isEmpty then []
  else (articles.map (attachScore preferences)).insertionSort scoreGe

/-- Python's `l[:n]` for an arbitrary integer `n`: the first `n` elements
when `0 ≤ n`, and all but the last `min |n| (length l)` elements when
`n < 0` (negative indices count from the end; slicing never raises). -/
def pySliceTo (l : List α) (n : Int) : List α :=
  if 0 ≤ n then l.take n.toNat
  else l.take (l.length - min n.natAbs l.length)

/-- Function `RecommendationEngine.generate_recommendations`
(`recommendations/engine.py`, lines 74-84): rank, then
`ranked_articles[:num_recommendations]`. -/
def generate_recommendations (articles : List Article)
    (preferences : UserPreferences) (num_recommendations : Int := 10) :
    List Article :=
  pySliceTo (rank_articles articles preferences) num_recommendations

/-- Python `sep.join(l)`. -/
def strJoin (sep : String) : List String → String
  | [] => ""
  | [a] => a
  | a :: rest => a ++ sep ++ strJoin sep rest

/-- Function `PreferenceProcessor.transform_for_fetching`
(`processing/preference_processor.py`, lines 30-60).  The returned dict is
modelled as an association list in insertion order: the literal
`{language, pageSize, sortBy}` first, then `q`, `sources`,
`excludeDomains` when added.  `preferences.language or "en"` is the
Python `or` of a string (falls back iff the string is empty). -/
def transform_for_fetching (preferences : UserPreferences) :
    List (String × PVal) :=
  let base : List (String × PVal) :=
    [("language", .s (if preferences.language ≠ "" then preferences.language else "en")),
     ("pageSize", .n 20),
     ("sortBy", .s "publishedAt")]
  let search_terms :=
    (if ¬ preferences.preferred_categories.isEmpty then preferences.preferred_categories
     else []) ++
      (if ¬ preferences.keywords.isEmpty then preferences.keywords else [])
  let withQ :=
    if ¬ search_terms.isEmpty then base ++ [("q", .s (strJoin " OR " search_terms))]
    else base
  let withSources :=
    if ¬ preferences.sources.isEmpty then
      withQ ++ [("sources", .s (strJoin "," preferences.sources))]
    else withQ
  if ¬ preferences.excluded_sources.isEmpty then
    withSources ++ [("excludeDomains", .s (strJoin "," preferences.excluded_sources))]
  else withSources

/-- Ordering of dict entries by key, as used by
`json.dumps(..., sort_keys=True)`. -/
def keyLe (x y : String × PVal) : Prop :=
  x.1 ≤ y.1

instance : DecidableRel keyLe := fun x y =>
  inferInstanceAs (Decidable (x.1 ≤ y.1))

/-- Function `make_cache_key` (`fetchers/newsapi_client.py`, lines 17-19):
`json.dumps(query_params, sort_keys=True)`.  On dicts with string keys
and scalar values `json.dumps` with sorted keys is an injective canonical
serialisation, so the produced string is modelled by the key-sorted
association list itself. -/
def make_cache_key (query_params : List (String × PVal)) :
    List (String × PVal) :=
  query_params.insertionSort keyLe

/-- Python `dict.get(k, default)` on an association list. -/
def dictGetD (d : List (String × PVal)) (k : String) (dflt : PVal) : PVal :=
  ((d.find? fun p => p.1 == k).map Prod.snd).getD dflt

/-- Python `int(v)`: identity on ints, decimal parsing on strings
(raising — `none` — when the string is not a numeral). -/
def pyInt : PVal → Option Int
  | .n v => some v
  | .s v => pyStrInt v

/-- The `params_to_use` normalisation inside `fetch_articles`
(`fetchers/newsapi_client.py`, lines 50-60): rebuild the dict with
defaults, clamp `pageSize` to at most 100 via `min(int(...), 100)`, then
drop falsy values.  `none` models the `int()` call raising (this happens
outside the `try` block). -/
def normalize_params (query_params : List (String × PVal)) :
    Option (List (String × PVal)) :=
  match pyInt (dictGetD query_params "pageSize" (.n 20)) with
  | none => none
  | some ps =>
    let params_to_use : List (String × PVal) :=
      [("q", dictGetD query_params "q" (.s "")),
       ("sources", dictGetD query_params "sources" (.s "")),
       ("excludeDomains", dictGetD query_params "excludeDomains" (.s "")),
       ("language", dictGetD query_params "language" (.s "en")),
       ("pageSize", .n (min ps 100)),
       ("sortBy", dictGetD query_params "sortBy" (.s "publishedAt")),
       ("from", dictGetD query_params "from" (.s ""))]
    some (params_to_use.filter fun p => p.2.truthy)

/-- The parsed JSON body of a NewsAPI response: `data.get("status")` and
`data.get("articles", [])`. -/
structure ApiBody (A : Type) where
  status : Option String := none
  articles : Option (List A) := none

/-- The outcome of the single `requests.get` call made by
`fetch_articles`:
* `transportError` — `requests.get` raised a `RequestException`
  (connection error, timeout, too many redirects, ...);
* `response status body` — an HTTP response arrived with the given status
  code; `body = none` means `response.json()` raised (undecodable body),
  `body = some data` is the decoded JSON. -/
inductive HttpOutcome (A : Type) where
  | transportError
  | response (status : Nat) (body : Option (ApiBody A))

/-- Function `NewsApiClient.fetch_articles` (`fetchers/newsapi_client.py`, lines
37-88), as a function of the raw query parameters and of the boundary
outcome.  `Except Unit _` separates the one uncaught exception path (the
`int()` conversion raising before the `try` block) from the function's
return value.  Inside the `try`: `response.raise_for_status()` raises
`HTTPError` exactly for status codes 400-599 (per the source's own
comment, "Raise HTTPError for bad responses (4xx or 5xx)"), which the
`except RequestException` arm converts to `None`; a JSON decode failure
is caught by `except Exception`; a body whose `status` is not `"ok"`
yields `None`; otherwise the received article list is returned as is. -/
def fetch_articles (query_params : List (String × PVal))
    (outcome : HttpOutcome A) : Except Unit (Option (List A)) :=
  match normalize_params query_params with
  | none => .error ()
  | some _ =>
    .ok <| match outcome with
      | .transportError => none
      | .response status body =>
        if 400 ≤ status ∧ status < 600 then none
        else
          match body with
          | none => none
          | some data =>
            if data.status = some "ok" then some (data.articles.getD [])
            else none

/-- A cache key produced by `generate_cache_key`
(`analysis/llm_analyzer.py`, lines 15-18):
`f"{func_name}:{sha256(text).hexdigest()}"`.  SHA-256 is treated as
injective (collision resistance), so the hex digest is modelled by the
hashed text itself; equality of modelled keys then coincides with
equality of the real key strings. -/
structure CacheKey where
  func_name : String
  hashed_text : String
deriving DecidableEq

/-- Function `generate_cache_key(func_name, text)`. -/
def generate_cache_key (func_name text : String) : CacheKey :=
  ⟨func_name, text⟩

/-- Cache key of `extract_keywords(text, num_keywords)`:
`generate_cache_key('extract_keywords', text + str(num_keywords))`. -/
def extract_keywords_key (text : String) (num_keywords : Nat) : CacheKey :=
  generate_cache_key "extract_keywords" (text ++ Nat.repr num_keywords)

/-- Cache key of `generate_summary(text, max_length)`:
`generate_cache_key('generate_summary', text + str(max_length))`. -/
def generate_summary_key (text : String) (max_length : Nat) : CacheKey :=
  generate_cache_key "generate_summary" (text ++ Nat.repr max_length)

/-- Cache key of `analyze_sentiment(text)`:
`generate_cache_key('analyze_sentiment', text)`. -/
def analyze_sentiment_key (text : String) : CacheKey :=
  generate_cache_key "analyze_sentiment" text

/-- Strict lexicographic comparison of character lists by code point
(Python `str.__lt__`). -/
def charListLt : List Char → List Char → Bool
  | _, [] => false
  | [], _ :: _ => true
  | a :: as, b :: bs =>
    Nat.blt a.toNat b.toNat || (a == b && charListLt as bs)

/-- Ordering of strings as Python `sorted` uses it: `x ≤ y` iff not
`y < x` lexicographically by code point. -/
def strLe (x y : String) : Prop :=
  charListLt y.data x.data = false

instance : DecidableRel strLe := fun x y =>
  inferInstanceAs (Decidable (charListLt y.data x.data = false))

/-- Cache key of `categorize_article(text, categories)`:
`generate_cache_key('categorize_article', text + "".join(sorted(categories)))`. -/
def categorize_article_key (text : String) (categories : List String) : CacheKey :=
  generate_cache_key "categorize_article"
    (text ++ strJoin "" (categories.insertionSort strLe))

/-- Function `LlmAnalyzer.analyze_sentiment` (`analysis/llm_analyzer.py`, lines
110-124) as a function of the LLM response (`_make_llm_call` returns the
stripped response text, or `None` on any API failure): the response is
accepted iff it is truthy and its lowercasing is one of the three labels,
in which case the lowercased label is returned; every other response
gives `None`.  The function is total — no exception escapes. -/
def analyze_sentiment (llm_response : Option String) : Option String :=
  match llm_response with
  | none => none
  | some sentiment =>
    if sentiment ≠ "" ∧ strLower sentiment ∈ ["positive", "negative", "neutral"] then
      some (strLower sentiment)
    else none


/-- Decimal digit expansion of a natural number (reference version of
core's fuel-based `Nat.toDigitsCore` at base 10, used to reason about
`str(n)`). -/
def decAux (n : Nat) : List Char :=
  if n < 10 then [Nat.digitChar (n % 10)]
  else decAux (n / 10) ++ [Nat.digitChar (n % 10)]
decreasing_by exact Nat.div_lt_self (by omega) (by omega)

/-- Strict ordering of dict entries by key. -/
def keyLt (x y : String × PVal) : Prop :=
  x.1 < y.1

instance : IsTotal (String × PVal) keyLe :=
  ⟨fun a b => le_total a.1 b.1⟩

instance : IsTrans (String × PVal) keyLe :=
  ⟨fun _ _ _ hab hbc => le_trans hab hbc⟩

instance : IsAntisymm (String × PVal) keyLt :=
  ⟨fun _ _ h1 h2 => absurd h2 (lt_asymm h1)⟩

instance : IsTotal Article scoreGe :=
  ⟨fun a b => le_total (relKey b) (relKey a)⟩

instance : IsTrans Article scoreGe :=
  ⟨fun _ _ _ hab hbc => le_trans hbc hab⟩

/-! ## Concrete data from the repository's tests -/

/-- Article `ARTICLE_TECH_AI_GPU` from `tests/recommendations/test_engine.py`. -/
def exampleArticle : Article :=
  { title := "New AI Chip uses Advanced GPU"
    description := "Breakthrough in AI processing."
    content := "The new gpu accelerates AI tasks."
    category := some "technology"
    source_name := "Tech Report" }

/-- The preference record of the specification's scoring example. -/
def examplePrefs : UserPreferences :=
  { user_id := "tech_user"
    keywords := ["ai", "gpu"]
    preferred_categories := ["technology"]
    sources := ["tech report"] }

/-- Articles with no matching content (every score is `0`). -/
def plainArticle1 : Article := { title := "a1" }

def plainArticle2 : Article := { title := "a2" }

def plainArticle3 : Article := { title := "a3" }

/-- A preference record with only `user_id` set. -/
def minimalPrefs : UserPreferences := { user_id := "u" }

/-! ## Helper lemmas -/

theorem foldl_if_add_one (p : String → Bool) (l : List String) (init : Rat) :
    l.foldl (fun s kw => if p kw then s + 1 else s) init
      = init + ((l.filter p).length : Rat) := by
  induction l generalizing init with
  | nil => simp
  | cons a t ih =>
    by_cases h : p a
    · simp only [List.foldl_cons, h, if_pos, List.filter_cons_of_pos, List.length_cons, ih]
      push_cast
      ring
    · simp [h, ih, List.filter_cons]

theorem kwPart (p : UserPreferences) (T : String) :
    (if p.keywords.isEmpty then (0:Rat)
      else p.keywords.foldl
        (fun s keyword => if strContains T (strLower keyword) then s + 1 else s) 0)
      = ((p.keywords.filter fun kw => strContains T (strLower kw)).length : Rat) := by
  by_cases h : p.keywords.isEmpty
  · have he : p.keywords = [] := by simpa using h
    simp [h, he]
  · rw [if_neg h, foldl_if_add_one]
    simp

theorem srcPart (p : UserPreferences) (name : String) (s2 : Rat) :
    (if ¬ p.sources.isEmpty then
      (if strLower name ∈ p.sources.map strLower then s2 + 1 / 2 else s2) else s2)
    = s2 + (if strLower name ∈ p.sources.map strLower then 1 / 2 else 0) := by
  by_cases hm : strLower name ∈ p.sources.map strLower
  · have hsne : ¬ p.sources.isEmpty := by
      cases hsl : p.sources with
      | nil => rw [hsl] at hm; simp at hm
      | cons x xs => simp
    rw [if_pos hsne, if_pos hm, if_pos hm]
  · rw [if_neg hm, if_neg hm, ite_self, add_zero]

theorem catPart (p : UserPreferences) (c : String) (s1 : Rat) :
    (if ¬ p.preferred_categories.isEmpty ∧ c ≠ "" then
      (if c ∈ p.preferred_categories then s1 + 2 else s1) else s1)
    = s1 + (if c ≠ "" ∧ c ∈ p.preferred_categories then 2 else 0) := by
  by_cases hcm : c ∈ p.preferred_categories
  · have hpc : ¬ p.preferred_categories.isEmpty := by
      cases hl : p.preferred_categories with
      | nil => rw [hl] at hcm; simp at hcm
      | cons x xs => simp
    by_cases hce : c = ""
    · rw [if_neg (fun h => h.2 hce), if_neg (fun h => h.1 hce), add_zero]
    · rw [if_pos ⟨hpc, hce⟩, if_pos hcm, if_pos ⟨hce, hcm⟩]
  · by_cases hcond : ¬ p.preferred_categories.isEmpty ∧ c ≠ ""
    · rw [if_pos hcond, if_neg hcm, if_neg (fun h => hcm h.2), add_zero]
    · rw [if_neg hcond, if_neg (fun h => hcm h.2), add_zero]

theorem score_article_eq_specScore (a : Article) (p : UserPreferences) :
    score_article a p = specScore a p := by
  rcases a with ⟨title, description, content, category, source_name, rel⟩
  cases category with
  | none =>
    simp only [score_article, specScore]
    rw [kwPart, srcPart]
    ring
  | some c =>
    simp only [score_article, specScore]
    rw [kwPart, catPart, srcPart]

theorem rank_articles_eq (l : List Article) (p : UserPreferences) :
    rank_articles l p = (l.map (attachScore p)).insertionSort scoreGe := by
  cases l <;> simp [rank_articles]

theorem filter_relKey_orderedInsert (s : Rat) (a : Article) (L : List Article) :
    ((L.orderedInsert scoreGe a).filter fun b => decide (relKey b = s))
      = if relKey a = s then a :: L.filter (fun b => decide (relKey b = s))
        else L.filter fun b => decide (relKey b = s) := by
  rw [List.orderedInsert_eq_take_drop, List.filter_append]
  by_cases ha : relKey a = s
  · have htw : (L.takeWhile fun b => ¬ scoreGe a b).filter
        (fun b => decide (relKey b = s)) = [] := by
      rw [List.filter_eq_nil_iff]
      intro b hb
      have h1 : ¬ scoreGe a b := by simpa using List.mem_takeWhile_imp hb
      simp only [decide_eq_true_eq]
      intro hbs
      exact h1 (le_of_eq (by rw [hbs, ha]))
    rw [htw, if_pos ha]
    have hfa : (List.filter (fun b => decide (relKey b = s))
        (a :: L.dropWhile fun b => ¬ scoreGe a b))
        = a :: List.filter (fun b => decide (relKey b = s))
            (L.dropWhile fun b => ¬ scoreGe a b) := by
      simp [List.filter_cons, ha]
    rw [hfa]
    conv_rhs => rw [← List.takeWhile_append_dropWhile
      (p := fun b => decide (¬ scoreGe a b)) (l := L)]
    rw [List.filter_append, htw]
    simp
  · rw [if_neg ha]
    have hfa : (List.filter (fun b => decide (relKey b = s))
        (a :: L.dropWhile fun b => ¬ scoreGe a b))
        = List.filter (fun b => decide (relKey b = s))
            (L.dropWhile fun b => ¬ scoreGe a b) := by
      simp [List.filter_cons, ha]
    rw [hfa, ← List.filter_append, List.takeWhile_append_dropWhile]

theorem filter_relKey_insertionSort (s : Rat) (l : List Article) :
    ((l.insertionSort scoreGe).filter fun b => decide (relKey b = s))
      = l.filter fun b => decide (relKey b = s) := by
  induction l with
  | nil => rfl
  | cons a t ih =>
    simp only [List.insertionSort]
    rw [filter_relKey_orderedInsert]
    by_cases ha : relKey a = s
    · rw [if_pos ha, ih, List.filter_cons]
      simp [ha]
    · rw [if_neg ha, ih, List.filter_cons]
      simp [ha]

theorem rank_sorted (l : List Article) (p : UserPreferences) :
    (rank_articles l p).Sorted scoreGe := by
  rw [rank_articles_eq]
  exact List.sorted_insertionSort scoreGe _

theorem rank_perm (l : List Article) (p : UserPreferences) :
    (rank_articles l p).Perm (l.map (attachScore p)) := by
  rw [rank_articles_eq]
  exact List.perm_insertionSort scoreGe _

theorem toDigitsCore_eq_decAux (fuel n : Nat) (ds : List Char) (h : n < fuel) :
    Nat.toDigitsCore 10 fuel n ds = decAux n ++ ds := by
  induction fuel generalizing n ds with
  | zero => omega
  | succ f ih =>
    rw [Nat.toDigitsCore]
    by_cases h10 : n / 10 = 0
    · have hlt : n < 10 := by omega
      rw [decAux.eq_def, if_pos hlt]
      simp [h10]
    · have hlt : ¬ n < 10 := by
        intro hc
        exact h10 (Nat.div_eq_of_lt hc)
      rw [decAux.eq_def, if_neg hlt]
      simp only [h10, if_neg]
      have hdiv : n / 10 < n := Nat.div_lt_self (by omega) (by omega)
      rw [ih (n / 10) _ (by omega)]
      simp
theorem digitChar_toNat_sub (d : Nat) (h : d < 10) :
    (Nat.digitChar d).toNat - 48 = d := by
  interval_cases d <;> decide

theorem decListVal_append_digit (l : List Char) (c : Char) :
    decListVal (l ++ [c]) = decListVal l * 10 + (c.toNat - 48) := by
  simp [decListVal, List.foldl_append]

theorem decListVal_decAux (n : Nat) : decListVal (decAux n) = n := by
  induction n using Nat.strong_induction_on with
  | _ n ih =>
    by_cases h : n < 10
    · rw [decAux.eq_def, if_pos h]
      have := digitChar_toNat_sub (n % 10) (by omega)
      simp [decListVal, this]
      omega
    · rw [decAux.eq_def, if_neg h, decListVal_append_digit]
      rw [ih (n / 10) (Nat.div_lt_self (by omega) (by omega))]
      rw [digitChar_toNat_sub (n % 10) (by omega)]
      omega

theorem decAux_inj {m n : Nat} (h : decAux m = decAux n) : m = n := by
  rw [← decListVal_decAux m, h, decListVal_decAux]

theorem natRepr_inj {m n : Nat} (h : Nat.repr m = Nat.repr n) : m = n := by
  apply decAux_inj
  have hm : Nat.toDigits 10 m = decAux m := by
    rw [Nat.toDigits, toDigitsCore_eq_decAux _ _ _ (Nat.lt_succ_self m)]
    simp
  have hn : Nat.toDigits 10 n = decAux n := by
    rw [Nat.toDigits, toDigitsCore_eq_decAux _ _ _ (Nat.lt_succ_self n)]
    simp
  have h2 : (Nat.toDigits 10 m).asString = (Nat.toDigits 10 n).asString := h
  rw [hm, hn] at h2
  simpa [List.asString] using congrArg String.data h2

theorem string_data_append (a b : String) : (a ++ b).data = a.data ++ b.data := by
  rcases a with ⟨A⟩
  rcases b with ⟨B⟩
  rfl

theorem string_append_left_cancel {t s1 s2 : String} (h : t ++ s1 = t ++ s2) :
    s1 = s2 := by
  have hd : t.data ++ s1.data = t.data ++ s2.data := by
    rw [← string_data_append, ← string_data_append, h]
  have : s1.data = s2.data := List.append_cancel_left hd
  rcases s1 with ⟨A⟩
  rcases s2 with ⟨B⟩
  exact congrArg String.mk this

theorem sorted_keyLt_of (l : List (String × PVal)) (hs : l.Sorted keyLe)
    (hnd : (l.map Prod.fst).Nodup) : l.Sorted keyLt := by
  have hne : l.Pairwise (fun x y : String × PVal => x.1 ≠ y.1) :=
    List.pairwise_map.mp hnd
  exact (hs.and hne).imp fun h => lt_of_le_of_ne h.1 h.2

theorem make_cache_key_perm (d1 d2 : List (String × PVal)) (hp : d1.Perm d2)
    (hnd : (d1.map Prod.fst).Nodup) : make_cache_key d1 = make_cache_key d2 := by
  have h1s : (make_cache_key d1).Sorted keyLe := List.sorted_insertionSort _ _
  have h2s : (make_cache_key d2).Sorted keyLe := List.sorted_insertionSort _ _
  have hp1 : (make_cache_key d1).Perm d1 := List.perm_insertionSort _ _
  have hp2 : (make_cache_key d2).Perm d2 := List.perm_insertionSort _ _
  have hperm : (make_cache_key d1).Perm (make_cache_key d2) :=
    hp1.trans (hp.trans hp2.symm)
  have hnd1 : ((make_cache_key d1).map Prod.fst).Nodup :=
    ((hp1.map Prod.fst).nodup_iff).mpr hnd
  have hnd2 : ((make_cache_key d2).map Prod.fst).Nodup :=
    (((hp2.map Prod.fst).trans ((hp.map Prod.fst).symm)).nodup_iff).mpr hnd
  exact List.eq_of_perm_of_sorted hperm (sorted_keyLt_of _ h1s hnd1)
    (sorted_keyLt_of _ h2s hnd2)



/-- Lemma: `score_article` never reads the `relevance_score` field. -/
theorem score_article_relevance_irrel (a : Article) (p : UserPreferences)
    (s : Option Rat) :
    score_article { a with relevance_score := s } p = score_article a p := rfl


/-! ## Claims -/

/-- C1, counterexample: the cache fingerprint is not injective on
(text, parameters).  `extract_keywords("a", num_keywords=12)` and
`extract_keywords("a1", num_keywords=2)` both hash
`"a12"`, and `categorize_article` with the same text collides on the
distinct category sets `["ab"]` and `["a", "b"]`, whose sorted
concatenation is `"ab"` in both cases. -/
theorem claim_C1_counterexample :
    extract_keywords_key "a" 12 = extract_keywords_key "a1" 2
      ∧ ¬ ("a" = "a1" ∧ (12 : Nat) = 2)
      ∧ categorize_article_key "news text" ["ab"]
          = categorize_article_key "news text" ["a", "b"]
      ∧ (["ab"] : List String) ≠ ["a", "b"] := by
  refine ⟨by decide, by decide, by decide, by decide⟩

/-- C1, amended: every operation's key is built from its own operation
name, so distinct operations never share a key; and for a fixed input
text, `extract_keywords` and `generate_summary` keys are injective in
their numeric parameter, and `analyze_sentiment` keys are injective in
the text.  (Injectivity on the whole (text, parameters) pair fails, see
the counterexample.) -/
theorem claim_C1_amended :
    (∀ t k k', extract_keywords_key t k = extract_keywords_key t k' → k = k')
      ∧ (∀ t m m', generate_summary_key t m = generate_summary_key t m' → m = m')
      ∧ (∀ t t', analyze_sentiment_key t = analyze_sentiment_key t' → t = t')
      ∧ (∀ t k t' m, extract_keywords_key t k ≠ generate_summary_key t' m)
      ∧ (∀ t k t', extract_keywords_key t k ≠ analyze_sentiment_key t')
      ∧ (∀ t k t' cats, extract_keywords_key t k ≠ categorize_article_key t' cats)
      ∧ (∀ t m t', generate_summary_key t m ≠ analyze_sentiment_key t')
      ∧ (∀ t m t' cats, generate_summary_key t m ≠ categorize_article_key t' cats)
      ∧ (∀ t t' cats, analyze_sentiment_key t ≠ categorize_article_key t' cats) := by
  refine ⟨?_, ?_, ?_, ?_, ?_, ?_, ?_, ?_, ?_⟩
  · intro t k k' h
    exact natRepr_inj (string_append_left_cancel (congrArg CacheKey.hashed_text h))
  · intro t m m' h
    exact natRepr_inj (string_append_left_cancel (congrArg CacheKey.hashed_text h))
  · intro t t' h
    exact congrArg CacheKey.hashed_text h
  · intro t k t' m h
    have h2 : "extract_keywords" = "generate_summary" := congrArg CacheKey.func_name h
    exact absurd h2 (by decide)
  · intro t k t' h
    have h2 : "extract_keywords" = "analyze_sentiment" := congrArg CacheKey.func_name h
    exact absurd h2 (by decide)
  · intro t k t' cats h
    have h2 : "extract_keywords" = "categorize_article" := congrArg CacheKey.func_name h
    exact absurd h2 (by decide)
  · intro t m t' h
    have h2 : "generate_summary" = "analyze_sentiment" := congrArg CacheKey.func_name h
    exact absurd h2 (by decide)
  · intro t m t' cats h
    have h2 : "generate_summary" = "categorize_article" := congrArg CacheKey.func_name h
    exact absurd h2 (by decide)
  · intro t t' cats h
    have h2 : "analyze_sentiment" = "categorize_article" := congrArg CacheKey.func_name h
    exact absurd h2 (by decide)

/-- C1, witness for the amended theorem at concrete inputs. -/
theorem claim_C1_witness :
    (3 : Nat) = 3 ∧ extract_keywords_key "ai text" 3 ≠ analyze_sentiment_key "ai text3" := by
  exact ⟨claim_C1_amended.1 "ai text" 3 3 rfl,
    claim_C1_amended.2.2.2.2.1 "ai text" 3 "ai text3"⟩

/-- C2: (code bug) on a preference record with only `userId` set,
`transform_for_fetching` returns `language`, `pageSize` and `sortBy`
keys, not the exact singleton `{language: "en"}` that the claim and the
repository's own test `test_transform_minimal` require. -/
theorem claim_C2_minimal_transform :
    transform_for_fetching { user_id := "test_user_2" }
        = [("language", .s "en"), ("pageSize", .n 20), ("sortBy", .s "publishedAt")]
      ∧ transform_for_fetching { user_id := "test_user_2" }
        ≠ [("language", .s "en")] := by
  refine ⟨by decide, by decide⟩

/-- C3, counterexample: the cache key is computed from the raw
query-parameter dict (the `@cached` key function runs before the
normalisation inside `fetch_articles`), so two raw dicts with equal
normalised forms — `pageSize` 150 and 100 both clamp to 100 — get
different cache keys. -/
theorem claim_C3_counterexample :
    normalize_params [("pageSize", .n 150)] = normalize_params [("pageSize", .n 100)]
      ∧ make_cache_key [("pageSize", .n 150)] ≠ make_cache_key [("pageSize", .n 100)] := by
  refine ⟨by decide, by decide⟩

/-- C3, amended: the cache key is the canonical (key-sorted)
serialisation of the *raw* parameter dict, so two raw mappings that are
equal as dicts — in particular mappings differing only in key ordering —
produce the same cache key and hit the same cache entry; but raw
mappings that merely normalise to the same parameter set can get
different keys (see the counterexample). -/
theorem claim_C3_amended (d1 d2 : List (String × PVal)) (hp : d1.Perm d2)
    (hnd : (d1.map Prod.fst).Nodup) :
    make_cache_key d1 = make_cache_key d2 :=
  make_cache_key_perm d1 d2 hp hnd

/-- C3, witness: two orderings of the dict `{q: "ai", language: "en"}`
share one cache key. -/
theorem claim_C3_witness :
    make_cache_key [("q", .s "ai"), ("language", .s "en")]
      = make_cache_key [("language", .s "en"), ("q", .s "ai")] := by
  exact claim_C3_amended _ _ (by decide) (by decide)


/-- C4, counterexample: a negative recommendation count is not rejected.
`generate_recommendations` with `num_recommendations = -2` on three
articles silently returns a normal value — the ranked list minus its
last two elements — instead of failing loudly. -/
theorem claim_C4_counterexample :
    generate_recommendations [plainArticle1, plainArticle2, plainArticle3]
        minimalPrefs (-2)
      = [{ plainArticle1 with relevance_score := some 0 }] := by
  decide

/-- C4, amended: for `n ≥ 0`, `generate_recommendations` returns the
first `n` elements of the ranked sequence (fewer if the input is
shorter, the empty sequence for `n = 0`); for negative `n` it does not
fail but follows Python slice semantics, silently returning the ranked
sequence with its last `min |n| length` elements removed. -/
theorem claim_C4_amended (articles : List Article) (p : UserPreferences) (n : Int) :
    (0 ≤ n → generate_recommendations articles p n
        = (rank_articles articles p).take n.toNat)
      ∧ (generate_recommendations articles p 0 = [])
      ∧ (n < 0 → generate_recommendations articles p n
        = (rank_articles articles p).take
            ((rank_articles articles p).length
              - min n.natAbs (rank_articles articles p).length)) := by
  refine ⟨fun hn => ?_, ?_, fun hn => ?_⟩
  · simp [generate_recommendations, pySliceTo, hn]
  · simp [generate_recommendations, pySliceTo]
  · simp [generate_recommendations, pySliceTo, not_le.mpr hn]

/-- C4, witness for the amended theorem: two articles, counts 1 and -1. -/
theorem claim_C4_witness :
    generate_recommendations [plainArticle1, plainArticle2] minimalPrefs 1
        = (rank_articles [plainArticle1, plainArticle2] minimalPrefs).take 1
      ∧ generate_recommendations [plainArticle1, plainArticle2] minimalPrefs (-1)
        = (rank_articles [plainArticle1, plainArticle2] minimalPrefs).take
            ((rank_articles [plainArticle1, plainArticle2] minimalPrefs).length
              - min (Int.natAbs (-1)) (rank_articles [plainArticle1, plainArticle2] minimalPrefs).length) := by
  exact ⟨(claim_C4_amended [plainArticle1, plainArticle2] minimalPrefs 1).1 (by decide),
    (claim_C4_amended [plainArticle1, plainArticle2] minimalPrefs (-1)).2.2 (by decide)⟩

/-- C5: `score_article` is exactly the additive rule `specScore` stated
by the specification, and on the specification's example it scores 4.5,
dropping to 4.0 when only the source is changed to a non-matching
name. -/
theorem claim_C5_scoring_rule :
    (∀ (a : Article) (p : UserPreferences), score_article a p = specScore a p)
      ∧ score_article exampleArticle examplePrefs = 9 / 2
      ∧ score_article { exampleArticle with source_name := "Other Source" }
          examplePrefs = 4 := by
  refine ⟨score_article_eq_specScore, ?_, ?_⟩
  · simp +decide [score_article, exampleArticle, examplePrefs]
    norm_num
  · simp +decide [score_article, exampleArticle, examplePrefs]
    norm_num

/-- C6: `rank_articles` sorts by relevance score descending with a
stable sort — the output is `Sorted scoreGe`, articles of any fixed
score keep their input order (filtering on one score value commutes
with the sort), and the empty input gives the empty output. -/
theorem claim_C6_rank_sorted_stable (l : List Article) (p : UserPreferences) :
    (rank_articles l p).Sorted scoreGe
      ∧ (∀ s : Rat, (rank_articles l p).filter (fun a => decide (relKey a = s))
          = (l.map (attachScore p)).filter fun a => decide (relKey a = s))
      ∧ rank_articles [] p = [] := by
  refine ⟨rank_sorted l p, fun s => ?_, rfl⟩
  rw [rank_articles_eq]
  exact filter_relKey_insertionSort s _


/-- C7, counterexample: `response.raise_for_status()` only raises for
status codes 400-599 (the source's own comment says "4xx or 5xx"), so a
non-2xx response outside that range — here a 300 with a well-formed
success body — yields the article list, where the claim ("on every
non-2xx response ... returns None") demands the absent result. -/
theorem claim_C7_counterexample :
    fetch_articles [("q", PVal.s "ai")]
        (.response 300 (some { status := some "ok", articles := some [(1 : Nat), 2] }))
      = .ok (some [1, 2])
      ∧ ¬ ((200 : Nat) ≤ 300 ∧ (300 : Nat) < 300) := by
  refine ⟨rfl, by decide⟩

/-- C7, amended: whenever the parameter normalisation succeeds,
`fetch_articles` is total over the boundary outcomes and never retries
or raises: a transport failure gives `None`; a 4xx/5xx response gives
`None` (converted by the `except RequestException` arm); an undecodable
body gives `None`; a decoded body whose `status` is not `"ok"` gives
`None`; and otherwise the received article list is returned unchanged. -/
theorem claim_C7_amended (A : Type) (params nd : List (String × PVal))
    (hn : normalize_params params = some nd) :
    fetch_articles params (.transportError : HttpOutcome A) = .ok none
      ∧ (∀ (status : Nat) (body : Option (ApiBody A)), 400 ≤ status → status < 600 →
          fetch_articles params (.response status body) = .ok none)
      ∧ (∀ status : Nat, ¬ (400 ≤ status ∧ status < 600) →
          fetch_articles params (.response status (none : Option (ApiBody A))) = .ok none)
      ∧ (∀ (status : Nat) (d : ApiBody A), ¬ (400 ≤ status ∧ status < 600) →
          d.status ≠ some "ok" →
          fetch_articles params (.response status (some d)) = .ok none)
      ∧ (∀ (status : Nat) (d : ApiBody A), ¬ (400 ≤ status ∧ status < 600) →
          d.status = some "ok" →
          fetch_articles params (.response status (some d))
            = .ok (some (d.articles.getD []))) := by
  refine ⟨?_, ?_, ?_, ?_, ?_⟩
  · simp [fetch_articles, hn]
  · intro status body h4 h6
    simp [fetch_articles, hn, h4, h6]
  · intro status h
    simp [fetch_articles, hn, h]
  · intro status d h hs
    simp [fetch_articles, hn, h, hs]
  · intro status d h hs
    simp [fetch_articles, hn, h, hs]

/-- C7, witness for the amended theorem at concrete outcomes. -/
theorem claim_C7_witness :
    fetch_articles [("q", PVal.s "ai")] (.transportError : HttpOutcome Nat) = .ok none
      ∧ fetch_articles [("q", PVal.s "ai")]
          (.response 404 (none : Option (ApiBody Nat))) = .ok none
      ∧ fetch_articles [("q", PVal.s "ai")]
          (.response 200 (some { status := some "ok", articles := some [(5 : Nat)] }))
        = .ok (some [5]) := by
  have h := claim_C7_amended Nat [("q", PVal.s "ai")]
    [("q", PVal.s "ai"), ("language", PVal.s "en"), ("pageSize", PVal.n 20),
      ("sortBy", PVal.s "publishedAt")] (by decide)
  exact ⟨h.1, h.2.1 404 none (by decide) (by decide),
    h.2.2.2.2 200 { status := some "ok", articles := some [5] } (by decide) rfl⟩

/-- C8: `analyze_sentiment` accepts an LLM response exactly when it
case-insensitively equals `positive`, `negative` or `neutral`, in which
case the lowercased label is returned; every other response — including
the multi-word `"mostly okay"` — yields the absent result, with no
exception and no guessed default. -/
theorem claim_C8_sentiment :
    (∀ (r : Option String) (out : String),
        analyze_sentiment r = some out
          ↔ ∃ s, r = some s ∧ strLower s ∈ ["positive", "negative", "neutral"]
              ∧ out = strLower s)
      ∧ analyze_sentiment (some "mostly okay") = none
      ∧ analyze_sentiment (some "POSITIVE") = some "positive"
      ∧ analyze_sentiment none = none := by
  refine ⟨?_, by decide, by decide, rfl⟩
  intro r out
  cases r with
  | none => simp [analyze_sentiment]
  | some s =>
    constructor
    · intro h
      simp only [analyze_sentiment] at h
      by_cases hc : s ≠ "" ∧ strLower s ∈ ["positive", "negative", "neutral"]
      · rw [if_pos hc] at h
        exact ⟨s, rfl, hc.2, (Option.some.inj h).symm⟩
      · rw [if_neg hc] at h
        exact absurd h (by simp)
    · rintro ⟨s2, hs2, hmem, hout⟩
      have hss : s2 = s := by
        injection hs2 with h2
        exact h2.symm
      subst hss
      have hne : s2 ≠ "" := by
        intro he
        subst he
        exact absurd hmem (by decide)
      subst hout
      simp only [analyze_sentiment]
      rw [if_pos ⟨hne, hmem⟩]

/-- C9: `transform_for_fetching` and `score_article` are pure functions
of their declared inputs: the score never depends on a previously
attached `relevance_score` (so re-scoring after `rank_articles` has
mutated the article yields the same value), and the fetch query depends
only on the preference fields it reads — two preference records agreeing
on `language`, `preferred_categories`, `keywords`, `sources` and
`excluded_sources` transform identically. -/
theorem claim_C9_purity :
    (∀ (a : Article) (p : UserPreferences) (s : Option Rat),
        score_article { a with relevance_score := s } p = score_article a p)
      ∧ (∀ (a : Article) (p : UserPreferences),
          score_article (attachScore p a) p = score_article a p)
      ∧ (∀ p q : UserPreferences, p.language = q.language →
          p.preferred_categories = q.preferred_categories →
          p.keywords = q.keywords → p.sources = q.sources →
          p.excluded_sources = q.excluded_sources →
          transform_for_fetching p = transform_for_fetching q) := by
  refine ⟨score_article_relevance_irrel, fun a p => rfl, ?_⟩
  intro p q h1 h2 h3 h4 h5
  rcases p with ⟨pu, pc, pe, pa, ps, pk, pl, pm, px⟩
  rcases q with ⟨qu, qc, qe, qa, qs, qk, ql, qm, qx⟩
  simp only at h1 h2 h3 h4 h5
  subst h1
  subst h2
  subst h3
  subst h4
  subst h5
  rfl

/-- C9, witness: two records differing only in `user_id` transform
identically. -/
theorem claim_C9_witness :
    transform_for_fetching { user_id := "alice", keywords := ["ai"] }
      = transform_for_fetching { user_id := "bob", keywords := ["ai"] } :=
  claim_C9_purity.2.2 _ _ rfl rfl rfl rfl rfl

/-- C10: `rank_articles` returns a permutation of the score-attached
input — nothing is dropped or duplicated, the length is preserved — and
every output article carries a `relevance_score` equal to its computed
score. -/
theorem claim_C10_rank_permutation (l : List Article) (p : UserPreferences) :
    (rank_articles l p).Perm (l.map (attachScore p))
      ∧ (rank_articles l p).length = l.length
      ∧ ∀ a ∈ rank_articles l p, a.relevance_score = some (score_article a p) := by
  refine ⟨rank_perm l p, ?_, ?_⟩
  · rw [(rank_perm l p).length_eq, List.length_map]
  · intro a ha
    have hmem : a ∈ l.map (attachScore p) := (rank_perm l p).mem_iff.mp ha
    obtain ⟨b, hb, rfl⟩ := List.mem_map.mp hmem
    rfl

/-- C10, witness at a one-article list. -/
theorem claim_C10_witness :
    (rank_articles [plainArticle1] minimalPrefs).Perm
        ([plainArticle1].map (attachScore minimalPrefs))
      ∧ ({ plainArticle1 with relevance_score := some 0 } : Article).relevance_score
        = some (score_article { plainArticle1 with relevance_score := some 0 }
            minimalPrefs) := by
  exact ⟨(claim_C10_rank_permutation [plainArticle1] minimalPrefs).1,
    (claim_C10_rank_permutation [plainArticle1] minimalPrefs).2.2 _ (by decide)⟩

end NewsAgent
